import Mathlib

/-!
Shallow embedding of `src/mypkgs/core.py` (the `mypkgs` tool, which reports
manually installed Debian packages).

Modelling conventions:

* A text file is represented by the outcome of opening and iterating it:
  `FileRead.ok lines` for a successful read (lines without their trailing
  newline, blank lines as `""`), or `FileRead.err decoded e` for a read that
  yielded the lines `decoded` and then raised `e`.  For the two fixed-path
  record files an absent file is `none` (the `os.path.exists` guard).
* `except (IOError, OSError)` in the source catches every `OSError`
  (in Python 3 `IOError` is an alias of `OSError`, and `gzip.BadGzipFile`
  is an `OSError` subclass), but not `UnicodeDecodeError`, which is a
  `ValueError`; the embedding keeps the two kinds of read failure apart
  (`ReadError.osError` versus `ReadError.decodeError`) and a function that
  can propagate an uncaught exception returns `Except PyErr`.
* Python `print` writes to standard output; the printed lines are threaded
  through the result types (`List String` of diagnostics, `ProgOut` for the
  whole process).
* Python `set` is `Finset String`; `sorted` on strings is
  `Finset.sort (· ≤ ·)` (both orders compare code points lexicographically).
-/

namespace Mypkgs

/-- Python `s.startswith(pre)`. -/
def pyStartswith (pre s : String) : Bool := pre.data.isPrefixOf s.data

/-- Python `s[n:]` (character slicing from index `n`). -/
def pyDrop (n : Nat) (s : String) : String := ⟨s.data.drop n⟩

/-- Python whitespace characters (the ASCII ones: space, tab, newline,
carriage return, vertical tab, form feed). -/
def isPySpace (c : Char) : Bool :=
  c == ' ' || c == '\t' || c == '\n' || c == '\r' || c == Char.ofNat 11 || c == Char.ofNat 12

/-- Python `s.strip()`. -/
def pyStrip (s : String) : String :=
  ⟨((s.data.dropWhile isPySpace).reverse.dropWhile isPySpace).reverse⟩

/-- Substring containment on character lists. -/
def hasSubstrL (sub : List Char) : List Char → Bool
  | [] => sub.isEmpty
  | c :: cs => sub.isPrefixOf (c :: cs) || hasSubstrL sub cs

/-- Python `sub in s`. -/
def pyIn (sub s : String) : Bool := hasSubstrL sub.data s.data

/-- An exception raised while reading a file.  `osError` is anything caught
by `except (IOError, OSError)`; `decodeError` is a `UnicodeDecodeError`,
which that clause does not catch. -/
inductive ReadError where
  | osError (msg : String)
  | decodeError (msg : String)
deriving DecidableEq

/-- Result of opening and iterating a text file: either all lines, or the
lines decoded before an exception was raised together with that exception. -/
inductive FileRead where
  | ok (lines : List String)
  | err (decoded : List String) (e : ReadError)
deriving DecidableEq

/-- An exception that escapes the program (uncaught). -/
inductive PyErr where
  | unicodeDecodeError (msg : String)
deriving DecidableEq

instance {ε α : Type} [DecidableEq ε] [DecidableEq α] : DecidableEq (Except ε α) := fun a b =>
  match a, b with
  | .error e, .error f =>
      if h : e = f then .isTrue (congrArg Except.error h)
      else .isFalse (fun hc => h (Except.error.inj hc))
  | .ok x, .ok y =>
      if h : x = y then .isTrue (congrArg Except.ok h)
      else .isFalse (fun hc => h (Except.ok.inj hc))
  | .error _, .ok _ => .isFalse (fun hc => Except.noConfusion hc)
  | .ok _, .error _ => .isFalse (fun hc => Except.noConfusion hc)

/-- The diagnostic line `print(f"Error reading {path}: {e}")` produces. -/
def readDiag (path msg : String) : String := "Error reading " ++ path ++ ": " ++ msg

/-! ## Extended-states reader
(`_get_manual_installed_packages_from_extended_states`, core.py lines 40-72) -/

/-- Loop state of the extended-states reader: the `package_name` and
`auto_installed` variables plus the accumulated `manual_packages` set. -/
structure ExtState where
  package_name : Option String
  auto_installed : Bool
  manual_packages : Finset String
deriving DecidableEq

def extInit : ExtState := ⟨none, false, ∅⟩

/-- One iteration of the `for line in f` loop of the extended-states reader. -/
def extStep (st : ExtState) (line : String) : ExtState :=
  if pyStartswith "Package: " line then
    { st with package_name := some (pyStrip (pyDrop 9 line)), auto_installed := false }
  else if pyStartswith "Auto-Installed: " line then
    { st with auto_installed := pyStrip (pyDrop 16 line) == "yes" }
  else
    match st.package_name with
    | some n =>
      if n != "" && !st.auto_installed then
        { st with manual_packages := insert n st.manual_packages }
      else st
    | none => st

def extRun (lines : List String) : ExtState := lines.foldl extStep extInit

def extended_states_file : String := "/var/lib/dpkg/extended_states"

/-- `_get_manual_installed_packages_from_extended_states`: result set paired
with the diagnostic lines printed (to standard output). -/
def _get_manual_installed_packages_from_extended_states :
    Option FileRead → Except PyErr (Finset String × List String)
  | none => .ok (∅, [])
  | some (.ok lines) => .ok ((extRun lines).manual_packages, [])
  | some (.err _ (.osError m)) => .ok (∅, [readDiag extended_states_file m])
  | some (.err _ (.decodeError m)) => .error (.unicodeDecodeError m)

/-! ## History log scanner
(`_get_manual_installed_packages_from_logs`, core.py lines 76-139) -/

/-- The character class `[a-z0-9._+-]` of the package-name patterns. -/
def nameChar (c : Char) : Bool :=
  c.isLower || c.isDigit || c == '.' || c == '_' || c == '+' || c == '-'

/-- The character class `[0-9.:~-]` of the version part of the patterns. -/
def versionChar (c : Char) : Bool :=
  c.isDigit || c == '.' || c == ':' || c == '~' || c == '-'

/-- Group 1 of `package_name_pattern.match(entry)` where
`package_name_pattern = ([a-z0-9._+-]+)(?:=[0-9.:~-]+)?`: the maximal run of
name characters at the start of the entry, or `none` when there is no match
(first character not in the class). -/
def package_name_pattern_group1 (package_entry : List Char) : Option (List Char) :=
  let name := package_entry.takeWhile nameChar
  if name.isEmpty then none else some name

/-- Match `[a-z0-9._+-]+(?:=[0-9.:~-]+)?` at the head of `cs`: returns the
consumed characters and the rest.  The char classes of consecutive pieces are
disjoint at every boundary, so greedy matching never needs to backtrack. -/
def matchPkgTok (cs : List Char) : Option (List Char × List Char) :=
  let name := cs.takeWhile nameChar
  if name.isEmpty then none
  else
    let rest := cs.drop name.length
    match rest with
    | '=' :: r2 =>
      let ver := r2.takeWhile versionChar
      if ver.isEmpty then some (name, rest)
      else some (name ++ '=' :: ver, r2.drop ver.length)
    | _ => some (name, rest)

/-- Greedy `(,\s*[a-z0-9._+-]+(?:=[0-9.:~-]+)?)*`.  Each iteration consumes at
least two characters, so `fuel` equal to the length of the input suffices. -/
def matchTokListTail (fuel : Nat) (cs : List Char) : List Char × List Char :=
  match fuel with
  | 0 => ([], cs)
  | fuel + 1 =>
    match cs with
    | ',' :: r =>
      let ws := r.takeWhile isPySpace
      match matchPkgTok (r.drop ws.length) with
      | some (con, rest) =>
        let (con2, rest2) := matchTokListTail fuel rest
        (',' :: (ws ++ con ++ con2), rest2)
      | none => ([], cs)
    | _ => ([], cs)

/-- Attempt `install\s+(?P<packages>...)` at this position; on success the
returned value is the `packages` capture group. -/
def tryInstallAt (cs : List Char) : Option (List Char) :=
  if "install".data.isPrefixOf cs then
    let r := cs.drop 7
    let ws := r.takeWhile isPySpace
    if ws.isEmpty then none
    else
      match matchPkgTok (r.drop ws.length) with
      | some (con, rest) =>
        let (con2, _) := matchTokListTail rest.length rest
        some (con ++ con2)
      | none => none
  else none

/-- `install_pattern.search(line)`: the match at the leftmost position where
the pattern matches, as its `packages` capture group. -/
def install_pattern_search : List Char → Option (List Char)
  | [] => none
  | c :: cs =>
    match tryInstallAt (c :: cs) with
    | some cap => some cap
    | none => install_pattern_search cs

/-- Python `str.split(", ")`: split on each non-overlapping occurrence of the
separator, scanning left to right (`acc` holds the current piece reversed). -/
def pySplitCS : List Char → List Char → List (List Char)
  | [], acc => [acc.reverse]
  | ',' :: ' ' :: cs, acc => acc.reverse :: pySplitCS cs []
  | c :: cs, acc => pySplitCS cs (c :: acc)

def pySplitCommaSpace (s : List Char) : List (List Char) := pySplitCS s []

/-- Body of `for package_entry in package_list`: add `group(1)` of the
anchored name match unless it is absent or the lone string `"."`. -/
def addEntry (acc : Finset String) (package_entry : List Char) : Finset String :=
  match package_name_pattern_group1 package_entry with
  | some name => if name ≠ ['.'] then insert (String.mk name) acc else acc
  | none => acc

/-- Body of `for line in f` of the log scanner. -/
def scanLine (acc : Finset String) (line : String) : Finset String :=
  if pyIn " install " line then
    match install_pattern_search line.data with
    | some packages_str => (pySplitCommaSpace packages_str).foldl addEntry acc
    | none => acc
  else acc

/-- Scan one log file.  An `OSError` (which includes `gzip.BadGzipFile`) is
caught by the per-file `try`, keeping what was accumulated so far; a
`UnicodeDecodeError` is not caught and propagates. -/
def scanFile (acc : Finset String) : FileRead → Except PyErr (Finset String)
  | .ok lines => .ok (lines.foldl scanLine acc)
  | .err decoded (.osError _) => .ok (decoded.foldl scanLine acc)
  | .err _ (.decodeError m) => .error (.unicodeDecodeError m)

def logsAux (acc : Finset String) : List FileRead → Except PyErr (Finset String)
  | [] => .ok acc
  | f :: fs =>
    match scanFile acc f with
    | .ok acc2 => logsAux acc2 fs
    | .error e => .error e

/-- `_get_manual_installed_packages_from_logs`, over the files the glob
found (a missing log simply does not appear in the list). -/
def _get_manual_installed_packages_from_logs (log_files : List FileRead) :
    Except PyErr (Finset String) :=
  logsAux ∅ log_files

/-! ## Status auto-flag reader
(`_get_auto_installed_packages`, core.py lines 143-173) -/

/-- Loop state of the status reader. -/
structure AutoState where
  package_name : Option String
  auto_packages : Finset String
deriving DecidableEq

def autoInit : AutoState := ⟨none, ∅⟩

/-- One iteration of the `for line in f` loop of the status reader. -/
def autoStep (st : AutoState) (line : String) : AutoState :=
  if pyStartswith "Package: " line then
    { st with package_name := some (pyStrip (pyDrop 9 line)) }
  else if pyStartswith "Status: " line && pyIn "auto" line then
    match st.package_name with
    | some n =>
      if n != "" then { st with auto_packages := insert n st.auto_packages } else st
    | none => st
  else st

def autoRun (lines : List String) : AutoState := lines.foldl autoStep autoInit

def status_file : String := "/var/lib/dpkg/status"

/-- `_get_auto_installed_packages`: result set paired with the diagnostic
lines printed (to standard output). -/
def _get_auto_installed_packages :
    Option FileRead → Except PyErr (Finset String × List String)
  | none => .ok (∅, [])
  | some (.ok lines) => .ok ((autoRun lines).auto_packages, [])
  | some (.err _ (.osError m)) => .ok (∅, [readDiag status_file m])
  | some (.err _ (.decodeError m)) => .error (.unicodeDecodeError m)

/-! ## Reconciler and pipeline (`get_manual_installed_packages`, lines 9-36) -/

/-- The set reconciliation of `get_manual_installed_packages` lines 22-36:
start from an empty set, `update` with the extended-states set, `update` with
the log set, `difference_update` with the auto-installed set. -/
def reconcile (s1 s2 s3 : Finset String) : Finset String :=
  let manual_packages : Finset String := ∅
  let manual_packages := manual_packages ∪ s1
  let manual_packages := manual_packages ∪ s2
  let manual_packages := manual_packages \ s3
  manual_packages

/-- `get_manual_installed_packages`, as a function of the three readers'
file inputs: the result set paired with all diagnostics printed so far. -/
def get_manual_installed_packages (ext : Option FileRead) (logs : List FileRead)
    (status : Option FileRead) : Except PyErr (Finset String × List String) := do
  let (s1, d1) ← _get_manual_installed_packages_from_extended_states ext
  let s2 ← _get_manual_installed_packages_from_logs logs
  let (s3, d3) ← _get_auto_installed_packages status
  .ok (reconcile s1 s2 s3, d1 ++ d3)

/-! ## Reporter (`main`, core.py lines 177-190) -/

def none_found_message : String := "No manually installed packages found."

/-- The lines `main` prints for the result set: the sorted package names when
the set is truthy (non-empty), otherwise the fixed message. -/
def reportLines (manual_packages : Finset String) : List String :=
  if manual_packages.Nonempty then Finset.sort (· ≤ ·) manual_packages
  else [none_found_message]

/-- Observable behaviour of one process run that terminated normally. -/
structure ProgOut where
  stdout : List String
  stderr : List String
  exitCode : Nat
deriving DecidableEq

/-- The whole program: compute the set (readers print their diagnostics to
standard output as they go), then report.  A normal run exits with status 0;
an uncaught exception is the `Except.error` case. -/
def main (ext : Option FileRead) (logs : List FileRead) (status : Option FileRead) :
    Except PyErr ProgOut := do
  let (manual_packages, diags) ← get_manual_installed_packages ext logs status
  .ok ⟨diags ++ reportLines manual_packages, [], 0⟩

/-! ## Derived definitions used to state the claims -/

/-- A file read that raises no `UnicodeDecodeError`. -/
def fileNoDecode : FileRead → Bool
  | .ok _ => true
  | .err _ (.osError _) => true
  | .err _ (.decodeError _) => false

def optNoDecode : Option FileRead → Bool
  | none => true
  | some f => fileNoDecode f

/-- A status-file record, as (package name, remaining record lines). -/
def statusRecordLines (r : String × List String) : List String :=
  ("Package: " ++ r.1) :: r.2

/-- The status file consisting of the given records in order. -/
def statusFileOf (rs : List (String × List String)) : List String :=
  (rs.map statusRecordLines).flatten

/-- Well-formedness of a record list: every record names a nonempty,
whitespace-trimmed package, and no record body line starts another record. -/
def statusWF (rs : List (String × List String)) : Bool :=
  rs.all fun r =>
    (r.1 != "") && (pyStrip r.1 == r.1) &&
    r.2.all fun l => !(pyStartswith "Package: " l)

/-- A `Status:` line containing the automatic-install marker substring,
exactly as the status reader tests it. -/
def isAutoLine (l : String) : Bool := pyStartswith "Status: " l && pyIn "auto" l

/-- "The package's own record has a `Status:` line with the marker". -/
def recordHasAuto (rs : List (String × List String)) (name : String) : Bool :=
  rs.any fun r => (r.1 == name) && r.2.any isAutoLine

/-! ## Helper lemmas -/

theorem isPrefixOf_self_append (l m : List Char) : l.isPrefixOf (l ++ m) = true := by
  induction l with
  | nil => simp [List.isPrefixOf]
  | cons c cs ih => simp [List.isPrefixOf, ih]

theorem data_append (p s : String) : (p ++ s).data = p.data ++ s.data := by
  cases p; cases s; rfl

theorem pyStartswith_self_append (p s : String) : pyStartswith p (p ++ s) = true := by
  rw [pyStartswith, data_append]; exact isPrefixOf_self_append _ _

theorem pyDrop_pkgline (n : String) : pyDrop 9 ("Package: " ++ n) = n := by
  cases n with
  | mk d => rw [pyDrop, data_append]; rfl

theorem bind_ok {α β : Type} (x : α) (f : α → Except PyErr β) :
    (Except.ok x >>= f) = f x := rfl

theorem bind_error {α β : Type} (er : PyErr) (f : α → Except PyErr β) :
    ((Except.error er : Except PyErr α) >>= f) = .error er := rfl

/-- Characterization of a successful pipeline run in terms of the three
readers' results. -/
theorem get_ok_iff (e : Option FileRead) (l : List FileRead) (s : Option FileRead)
    (S : Finset String) (d : List String) :
    get_manual_installed_packages e l s = .ok (S, d) ↔
    ∃ A dA B C dC,
      _get_manual_installed_packages_from_extended_states e = .ok (A, dA) ∧
      _get_manual_installed_packages_from_logs l = .ok B ∧
      _get_auto_installed_packages s = .ok (C, dC) ∧
      S = reconcile A B C ∧ d = dA ++ dC := by
  unfold get_manual_installed_packages
  cases hE : _get_manual_installed_packages_from_extended_states e with
  | error er => simp [bind_error]
  | ok p1 =>
    obtain ⟨A, dA⟩ := p1
    cases hL : _get_manual_installed_packages_from_logs l with
    | error er => simp [bind_ok, bind_error, hL]
    | ok B =>
      cases hA : _get_auto_installed_packages s with
      | error er => simp [bind_ok, bind_error, hL, hA]
      | ok p3 =>
        obtain ⟨C, dC⟩ := p3
        simp only [bind_ok, hL, hA]
        constructor
        · intro h
          obtain ⟨h1, h2⟩ := Prod.mk.injEq .. ▸ Except.ok.inj h
          exact ⟨A, dA, B, C, dC, rfl, rfl, rfl, h1.symm, h2.symm⟩
        · rintro ⟨A', dA', B', C', dC', hE', hL', hA', hS, hd⟩
          obtain ⟨hA1, hA2⟩ := Prod.mk.injEq .. ▸ Except.ok.inj hE'
          obtain hB := Except.ok.inj hL'
          obtain ⟨hC1, hC2⟩ := Prod.mk.injEq .. ▸ Except.ok.inj hA'
          subst hA1 hA2 hB hC1 hC2 hS hd
          rfl

/-! ## Claims -/

/-- Claim C1: the reconciliation step is the pure total function
`(set1 ∪ set2) \ set3` of the three sets produced by the readers, and the
full pipeline returns exactly that set whenever the readers succeed. -/
theorem c1 : ∀ A B C : Finset String,
    reconcile A B C = (A ∪ B) \ C ∧
    (∀ (e : Option FileRead) (l : List FileRead) (s : Option FileRead) dA dC,
      _get_manual_installed_packages_from_extended_states e = .ok (A, dA) →
      _get_manual_installed_packages_from_logs l = .ok B →
      _get_auto_installed_packages s = .ok (C, dC) →
      get_manual_installed_packages e l s = .ok ((A ∪ B) \ C, dA ++ dC)) := by
  intro A B C
  have hr : reconcile A B C = (A ∪ B) \ C := by
    simp [reconcile]
  refine ⟨hr, fun e l s dA dC hE hL hA => ?_⟩
  rw [get_ok_iff]
  exact ⟨A, dA, B, C, dC, hE, hL, hA, hr.symm, rfl⟩

theorem c1_witness :
    reconcile {"a"} ∅ ∅ = (({"a"} : Finset String) ∪ ∅) \ ∅ ∧
    get_manual_installed_packages none [] none = .ok (((∅ : Finset String) ∪ ∅) \ ∅, [] ++ []) :=
  ⟨(c1 {"a"} ∅ ∅).1,
   (c1 ∅ ∅ ∅).2 none [] none [] [] (by decide) (by decide) (by decide)⟩

/-- Claim C2 (code bug evaluation): on a well-formed extended-states file
whose record carries `Auto-Installed: yes` after another record line (the
layout of real extended_states files, where `Architecture:` sits between
`Package:` and `Auto-Installed:`), the reader nevertheless returns the
package: the unrecognized line triggers the add before the flag is read. -/
theorem c2_failing_eval : _get_manual_installed_packages_from_extended_states
    (some (.ok ["Package: foo", "Architecture: amd64", "Auto-Installed: yes", ""])) =
    .ok ({"foo"}, []) := by decide

/-- Claim C9: the pipeline is a pure function of the three file inputs, so
two runs against unchanged contents produce identical results. -/
theorem c9 : ∀ (e : Option FileRead) (l : List FileRead) (s : Option FileRead),
    main e l s = main e l s := fun _ _ _ => rfl

/-- Claim C10 (counterexample): a package whose name already occurred in an
earlier record can appear in the output even though the file's final line is
a `Package:` line naming it. -/
theorem c10_counterexample : _get_manual_installed_packages_from_extended_states
    (some (.ok ["Package: a", "x", "Package: a"])) = .ok ({"a"}, []) := by decide

/-- Claim C10 (amended): a final `Package:` line contributes nothing to the
extended-states reader's output: the output on the extended file equals the
output on the file without that final line (so the named package appears only
if earlier lines already added it). -/
theorem c10_amended : ∀ (lines : List String) (name : String),
    (extRun (lines ++ ["Package: " ++ name])).manual_packages =
    (extRun lines).manual_packages := by
  intro lines name
  rw [extRun, List.foldl_append]
  show (extStep _ _).manual_packages = _
  rw [extStep]
  simp [pyStartswith_self_append, extRun]

/-- Claim C4: whatever the three file inputs, no package of the auto-install
set computed in the same run appears in the result set. -/
theorem c4 : ∀ (e : Option FileRead) (l : List FileRead) (s : Option FileRead)
    (S : Finset String) (d : List String) (C : Finset String) (dC : List String) (p : String),
    get_manual_installed_packages e l s = .ok (S, d) →
    _get_auto_installed_packages s = .ok (C, dC) →
    p ∈ C → p ∉ S := by
  intro e l s S d C dC p h1 h2 hp
  rw [get_ok_iff] at h1
  obtain ⟨A, dA, B, C', dC', hE, hL, hA, hS, hd⟩ := h1
  obtain ⟨hC, -⟩ := Prod.mk.injEq .. ▸ Except.ok.inj (h2.symm.trans hA)
  subst hC hS
  simp [reconcile, hp]

theorem c4_witness :
    get_manual_installed_packages none []
      (some (.ok ["Package: x", "Status: install ok auto"])) = .ok (∅, []) ∧
    _get_auto_installed_packages
      (some (.ok ["Package: x", "Status: install ok auto"])) = .ok ({"x"}, []) ∧
    "x" ∈ ({"x"} : Finset String) ∧
    "x" ∉ (∅ : Finset String) :=
  ⟨by decide, by decide, by decide,
   c4 none [] (some (.ok ["Package: x", "Status: install ok auto"])) ∅ [] {"x"} [] "x"
     (by decide) (by decide) (by decide)⟩

/-- Claim C7: the reporter prints the result set sorted, one name per line,
each exactly once (no duplicates), or the single fixed message when the set
is empty; any normally terminating run exits with status 0. -/
theorem c7 : ∀ S : Finset String,
    reportLines S = (if S = ∅ then [none_found_message] else Finset.sort (· ≤ ·) S) ∧
    (reportLines S).Nodup ∧
    List.Sorted (· ≤ ·) (reportLines S) ∧
    (∀ p, p ∈ reportLines S ↔ (p ∈ S ∨ (S = ∅ ∧ p = none_found_message))) ∧
    (∀ (e : Option FileRead) (l : List FileRead) (s : Option FileRead) (out : ProgOut),
      main e l s = .ok out → out.exitCode = 0) := by
  intro S
  have hexit : ∀ (e : Option FileRead) (l : List FileRead) (s : Option FileRead) (out : ProgOut),
      main e l s = .ok out → out.exitCode = 0 := by
    intro e l s out h
    unfold main at h
    cases hg : get_manual_installed_packages e l s with
    | error er => rw [hg, bind_error] at h; exact Except.noConfusion h
    | ok p =>
      obtain ⟨S', d'⟩ := p
      rw [hg, bind_ok] at h
      obtain rfl := Except.ok.inj h
      rfl
  by_cases h : S = ∅
  · subst h
    refine ⟨by simp [reportLines], by simp [reportLines], by simp [reportLines], ?_, hexit⟩
    intro p
    simp [reportLines]
  · have hne : S.Nonempty := Finset.nonempty_iff_ne_empty.mpr h
    refine ⟨by simp [reportLines, hne, h], ?_, ?_, ?_, hexit⟩
    · simp [reportLines, hne]
    · simp [reportLines, hne]
    · intro p
      simp [reportLines, hne, h, Finset.mem_sort]

theorem c7_witness :
    main none [] none = .ok ⟨[none_found_message], [], 0⟩ ∧
    (⟨[none_found_message], [], 0⟩ : ProgOut).exitCode = 0 :=
  ⟨by decide,
   (c7 ∅).2.2.2.2 none [] none ⟨[none_found_message], [], 0⟩ (by decide)⟩

/-- Claim C8 (counterexample): a status-file read error produces its
diagnostic on standard output, interleaved with the reporter's output, and
nothing on the error channel. -/
theorem c8_counterexample :
    main none [] (some (.err [] (.osError "Permission denied"))) =
    .ok ⟨["Error reading /var/lib/dpkg/status: Permission denied",
          "No manually installed packages found."], [], 0⟩ := by decide

/-- Claim C8 (amended): read-error diagnostics are written to standard
output, the same stream as the package list; the error channel stays empty
and the exit code stays 0: standard output is exactly the diagnostics
followed by the reporter's lines. -/
theorem c8_amended : ∀ (e : Option FileRead) (l : List FileRead) (s : Option FileRead)
    (out : ProgOut), main e l s = .ok out →
    out.stderr = [] ∧ out.exitCode = 0 ∧
    ∃ S diags, get_manual_installed_packages e l s = .ok (S, diags) ∧
      out.stdout = diags ++ reportLines S := by
  intro e l s out h
  unfold main at h
  cases hg : get_manual_installed_packages e l s with
  | error er => rw [hg, bind_error] at h; exact Except.noConfusion h
  | ok p =>
    obtain ⟨S, diags⟩ := p
    rw [hg, bind_ok] at h
    obtain rfl := Except.ok.inj h
    exact ⟨rfl, rfl, S, diags, rfl, rfl⟩

theorem c8_witness :
    (⟨["Error reading /var/lib/dpkg/status: denied",
       "No manually installed packages found."], [], 0⟩ : ProgOut).stderr = [] ∧
    (⟨["Error reading /var/lib/dpkg/status: denied",
       "No manually installed packages found."], [], 0⟩ : ProgOut).exitCode = 0 ∧
    ∃ S diags,
      get_manual_installed_packages none [] (some (.err [] (.osError "denied"))) =
        .ok (S, diags) ∧
      (⟨["Error reading /var/lib/dpkg/status: denied",
         "No manually installed packages found."], [], 0⟩ : ProgOut).stdout =
        diags ++ reportLines S :=
  c8_amended none [] (some (.err [] (.osError "denied")))
    ⟨["Error reading /var/lib/dpkg/status: denied",
      "No manually installed packages found."], [], 0⟩ (by decide)

theorem ext_noDecode_ok (e : Option FileRead) (h : optNoDecode e = true) :
    ∃ A dA, _get_manual_installed_packages_from_extended_states e = .ok (A, dA) := by
  cases e with
  | none => exact ⟨∅, [], rfl⟩
  | some f =>
    cases f with
    | ok lines => exact ⟨(extRun lines).manual_packages, [], rfl⟩
    | err d er =>
      cases er with
      | osError m => exact ⟨∅, [readDiag extended_states_file m], rfl⟩
      | decodeError m => simp [optNoDecode, fileNoDecode] at h

theorem auto_noDecode_ok (s : Option FileRead) (h : optNoDecode s = true) :
    ∃ C dC, _get_auto_installed_packages s = .ok (C, dC) := by
  cases s with
  | none => exact ⟨∅, [], rfl⟩
  | some f =>
    cases f with
    | ok lines => exact ⟨(autoRun lines).auto_packages, [], rfl⟩
    | err d er =>
      cases er with
      | osError m => exact ⟨∅, [readDiag status_file m], rfl⟩
      | decodeError m => simp [optNoDecode, fileNoDecode] at h

theorem logsAux_noDecode_ok (l : List FileRead) :
    ∀ acc, l.all fileNoDecode = true → ∃ B, logsAux acc l = .ok B := by
  induction l with
  | nil => intro acc _; exact ⟨acc, rfl⟩
  | cons f fs ih =>
    intro acc h
    rw [List.all_cons, Bool.and_eq_true] at h
    obtain ⟨hf, hfs⟩ := h
    cases f with
    | ok lines => simpa [logsAux, scanFile] using ih (lines.foldl scanLine acc) hfs
    | err d er =>
      cases er with
      | osError m => simpa [logsAux, scanFile] using ih (d.foldl scanLine acc) hfs
      | decodeError m => simp [fileNoDecode] at hf

/-- Claim C5 (counterexample): a `UnicodeDecodeError` while reading the
extended-states file is not caught by `except (IOError, OSError)`: it escapes
the reader and aborts the whole run. -/
theorem c5_counterexample :
    main (some (.err [] (.decodeError "invalid start byte"))) [] none =
    .error (.unicodeDecodeError "invalid start byte") := by decide

/-- Claim C5 (amended): every OS-level read failure (`IOError`/`OSError`,
which includes `gzip.BadGzipFile`) is caught inside the reader where it
occurs — the extended-states and status readers return the empty set, the
log scanner carries on exactly as if the failing file had ended at the last
decoded line — and with no decode failure among the inputs the pipeline
terminates normally. -/
theorem c5_amended : ∀ (e : Option FileRead) (l : List FileRead) (s : Option FileRead),
    optNoDecode e = true → l.all fileNoDecode = true → optNoDecode s = true →
    ((main e l s).isOk = true ∧
     (∀ (d : List String) (m : String),
       _get_manual_installed_packages_from_extended_states (some (.err d (.osError m))) =
         .ok (∅, [readDiag extended_states_file m])) ∧
     (∀ (d : List String) (m : String),
       _get_auto_installed_packages (some (.err d (.osError m))) =
         .ok (∅, [readDiag status_file m])) ∧
     (∀ (acc : Finset String) (pre post : List FileRead) (d : List String) (m : String),
       logsAux acc (pre ++ FileRead.err d (.osError m) :: post) =
       logsAux acc (pre ++ FileRead.ok d :: post))) := by
  intro e l s he hl hs
  refine ⟨?_, fun d m => rfl, fun d m => rfl, ?_⟩
  · obtain ⟨A, dA, hE⟩ := ext_noDecode_ok e he
    obtain ⟨B, hL⟩ := logsAux_noDecode_ok l ∅ hl
    obtain ⟨C, dC, hA⟩ := auto_noDecode_ok s hs
    have hg : get_manual_installed_packages e l s = .ok (reconcile A B C, dA ++ dC) :=
      (get_ok_iff e l s (reconcile A B C) (dA ++ dC)).mpr
        ⟨A, dA, B, C, dC, hE, hL, hA, rfl, rfl⟩
    unfold main
    rw [hg, bind_ok]
    rfl
  · intro acc pre post d m
    induction pre generalizing acc with
    | nil => rfl
    | cons f fs ih =>
      show logsAux acc (f :: (fs ++ _)) = logsAux acc (f :: (fs ++ _))
      cases hsf : scanFile acc f with
      | ok acc2 => simp [logsAux, hsf, ih acc2]
      | error er => simp [logsAux, hsf]

theorem c5_witness :
    optNoDecode (some (.err [] (.osError "read error"))) = true ∧
    List.all [] fileNoDecode = true ∧
    optNoDecode none = true ∧
    ((main (some (.err [] (.osError "read error"))) [] none).isOk = true ∧
     (∀ (d : List String) (m : String),
       _get_manual_installed_packages_from_extended_states (some (.err d (.osError m))) =
         .ok (∅, [readDiag extended_states_file m])) ∧
     (∀ (d : List String) (m : String),
       _get_auto_installed_packages (some (.err d (.osError m))) =
         .ok (∅, [readDiag status_file m])) ∧
     (∀ (acc : Finset String) (pre post : List FileRead) (d : List String) (m : String),
       logsAux acc (pre ++ FileRead.err d (.osError m) :: post) =
       logsAux acc (pre ++ FileRead.ok d :: post))) :=
  ⟨by decide, by decide, by decide,
   c5_amended (some (.err [] (.osError "read error"))) [] none
     (by decide) (by decide) (by decide)⟩

theorem takeWhile_of_all {p : Char → Bool} :
    ∀ (l : List Char), (∀ c ∈ l, p c = true) → l.takeWhile p = l := by
  intro l
  induction l with
  | nil => intro _; rfl
  | cons c cs ih =>
    intro h
    simp [List.takeWhile_cons, h c (by simp), ih fun x hx => h x (by simp [hx])]

theorem takeWhile_append_stop {p : Char → Bool} :
    ∀ (l m : List Char) (x : Char), (∀ c ∈ l, p c = true) → p x = false →
    (l ++ x :: m).takeWhile p = l := by
  intro l
  induction l with
  | nil => intro m x _ hx; simp [List.takeWhile_cons, hx]
  | cons c cs ih =>
    intro m x h hx
    simp [List.cons_append, List.takeWhile_cons, h c (by simp),
      ih m x (fun y hy => h y (by simp [hy])) hx]

/-- Claim C6: a log entry token of the form `name=version` is added with the
`=version` suffix stripped, a plain `name` token is added unchanged, and the
lone-separator token `"."` is discarded. -/
theorem c6 : ∀ (nm vs : List Char) (acc : Finset String),
    nm ≠ [] → (∀ c ∈ nm, nameChar c = true) → nm ≠ ['.'] →
    (addEntry acc (nm ++ '=' :: vs) = insert (String.mk nm) acc ∧
     addEntry acc nm = insert (String.mk nm) acc ∧
     addEntry acc ['.'] = acc) := by
  intro nm vs acc hne hall hdot
  obtain ⟨c, cs, rfl⟩ : ∃ c cs, nm = c :: cs := by
    cases nm with
    | nil => exact absurd rfl hne
    | cons c cs => exact ⟨c, cs, rfl⟩
  refine ⟨?_, ?_, rfl⟩
  · rw [addEntry, package_name_pattern_group1]
    rw [takeWhile_append_stop (c :: cs) vs '=' hall (by decide)]
    simp only [List.isEmpty_cons, Bool.false_eq_true, if_false]
    rw [if_pos hdot]
  · rw [addEntry, package_name_pattern_group1]
    rw [takeWhile_of_all (c :: cs) hall]
    simp only [List.isEmpty_cons, Bool.false_eq_true, if_false]
    rw [if_pos hdot]

theorem c6_witness :
    (['f', 'o', 'o'] : List Char) ≠ [] ∧
    (∀ c ∈ (['f', 'o', 'o'] : List Char), nameChar c = true) ∧
    (['f', 'o', 'o'] : List Char) ≠ ['.'] ∧
    (addEntry ∅ (['f', 'o', 'o'] ++ '=' :: ['1', '.', '2', '.', '3', '-', '1']) =
       insert (String.mk ['f', 'o', 'o']) ∅ ∧
     addEntry ∅ ['f', 'o', 'o'] = insert (String.mk ['f', 'o', 'o']) ∅ ∧
     addEntry ∅ ['.'] = ∅) :=
  ⟨by decide, by decide, by decide,
   c6 ['f', 'o', 'o'] ['1', '.', '2', '.', '3', '-', '1'] ∅
     (by decide) (by decide) (by decide)⟩

theorem autoStep_pkgline (st : AutoState) (n : String) (hn : pyStrip n = n) :
    autoStep st ("Package: " ++ n) = ⟨some n, st.auto_packages⟩ := by
  cases st with
  | mk c acc => simp [autoStep, pyStartswith_self_append, pyDrop_pkgline, hn]

theorem autoStep_body (n : String) (acc : Finset String) (hn : n ≠ "") (l : String)
    (hl : pyStartswith "Package: " l = false) :
    autoStep ⟨some n, acc⟩ l = ⟨some n, if isAutoLine l then insert n acc else acc⟩ := by
  by_cases h2 : (pyStartswith "Status: " l && pyIn "auto" l) = true
  · simp [autoStep, hl, h2, isAutoLine, hn]
  · have h2f : (pyStartswith "Status: " l && pyIn "auto" l) = false := by
      simpa using h2
    simp [autoStep, hl, h2f, isAutoLine]

theorem autoRun_body (n : String) (hn : n ≠ "") :
    ∀ (body : List String), (∀ l ∈ body, pyStartswith "Package: " l = false) →
    ∀ acc, List.foldl autoStep ⟨some n, acc⟩ body =
      ⟨some n, if body.any isAutoLine then insert n acc else acc⟩ := by
  intro body
  induction body with
  | nil => intro _ acc; simp
  | cons l rest ih =>
    intro hb acc
    rw [List.foldl_cons, autoStep_body n acc hn l (hb l (by simp))]
    by_cases hal : isAutoLine l = true
    · rw [if_pos hal, ih (fun x hx => hb x (by simp [hx])) (insert n acc)]
      by_cases har : rest.any isAutoLine = true
      · simp [List.any_cons, hal, har, Finset.insert_idem]
      · have harf : rest.any isAutoLine = false := by simpa using har
        simp [List.any_cons, hal, harf]
    · have half : isAutoLine l = false := by simpa using hal
      rw [if_neg (by simp [half]), ih (fun x hx => hb x (by simp [hx])) acc]
      simp [List.any_cons, half]

theorem statusWF_cons {n : String} {body : List String} {rest : List (String × List String)}
    (h : statusWF ((n, body) :: rest) = true) :
    n ≠ "" ∧ pyStrip n = n ∧ (∀ l ∈ body, pyStartswith "Package: " l = false) ∧
    statusWF rest = true := by
  rw [statusWF, List.all_cons, Bool.and_eq_true] at h
  obtain ⟨hr, hrest⟩ := h
  rw [Bool.and_eq_true, Bool.and_eq_true] at hr
  obtain ⟨⟨h1, h2⟩, h3⟩ := hr
  refine ⟨by simpa using h1, by simpa using h2, ?_, hrest⟩
  intro l hl
  simpa using List.all_eq_true.mp h3 l hl

theorem recordHasAuto_cons (n : String) (body : List String)
    (rest : List (String × List String)) (name : String) :
    recordHasAuto ((n, body) :: rest) name =
    (((n == name) && body.any isAutoLine) || recordHasAuto rest name) := by
  simp [recordHasAuto, List.any_cons]

theorem autoRun_records (name : String) :
    ∀ (rs : List (String × List String)), statusWF rs = true →
    ∀ (c : Option String) (acc : Finset String),
    (name ∈ (List.foldl autoStep ⟨c, acc⟩ (statusFileOf rs)).auto_packages ↔
      (name ∈ acc ∨ recordHasAuto rs name = true)) := by
  intro rs
  induction rs with
  | nil =>
    intro _ c acc
    simp [statusFileOf, recordHasAuto]
  | cons r rest ih =>
    intro hwf c acc
    obtain ⟨n, body⟩ := r
    obtain ⟨hn, hstrip, hbody, hrest⟩ := statusWF_cons hwf
    have hfile : statusFileOf ((n, body) :: rest) =
        ("Package: " ++ n) :: (body ++ statusFileOf rest) := by
      simp [statusFileOf, statusRecordLines]
    rw [hfile, List.foldl_cons, autoStep_pkgline ⟨c, acc⟩ n hstrip, List.foldl_append,
      autoRun_body n hn body hbody acc, ih hrest (some n) _]
    rcases eq_or_ne name n with hname | hname
    · subst hname
      by_cases hb : body.any isAutoLine = true <;>
        simp [hb, recordHasAuto_cons, Finset.mem_insert]
    · have hbeq : (n == name) = false := by
        simp [hname.symm]
      by_cases hb : body.any isAutoLine = true <;>
        simp [hb, recordHasAuto_cons, Finset.mem_insert, hbeq, hname]

/-- Claim C3: on a well-formed status file a package name is in the status
reader's output if and only if one of its own records has a `Status:` line
containing the automatic-install marker substring. -/
theorem c3 : ∀ (rs : List (String × List String)) (name : String)
    (S : Finset String) (d : List String),
    statusWF rs = true →
    _get_auto_installed_packages (some (.ok (statusFileOf rs))) = .ok (S, d) →
    (name ∈ S ↔ recordHasAuto rs name = true) := by
  intro rs name S d hwf hread
  have hS : (autoRun (statusFileOf rs)).auto_packages = S :=
    (Prod.mk.injEq .. ▸ Except.ok.inj hread).1
  rw [← hS]
  simpa [autoRun, autoInit] using autoRun_records name rs hwf none ∅

theorem c3_witness :
    statusWF [("curl", ["Status: install ok installed", ""]),
              ("libssl1.1", ["Status: install ok auto", ""])] = true ∧
    _get_auto_installed_packages
      (some (.ok (statusFileOf [("curl", ["Status: install ok installed", ""]),
                                ("libssl1.1", ["Status: install ok auto", ""])]))) =
      .ok ({"libssl1.1"}, []) ∧
    ("libssl1.1" ∈ ({"libssl1.1"} : Finset String) ↔
      recordHasAuto [("curl", ["Status: install ok installed", ""]),
                     ("libssl1.1", ["Status: install ok auto", ""])] "libssl1.1" = true) :=
  ⟨by decide, by decide,
   c3 [("curl", ["Status: install ok installed", ""]),
       ("libssl1.1", ["Status: install ok auto", ""])] "libssl1.1" {"libssl1.1"} []
     (by decide) (by decide)⟩

end Mypkgs
